import Mathlib

/-!
Verification of the `sw_pll` simulator (`python/sw_pll_sim.py`).

The Python code is shallowly embedded: Python floats are modelled as
rationals (`ℚ`), Python ints as `ℤ` (or `ℕ` where the source value is a
non-negative register/index), and code that can raise an exception
(`assert`, `ZeroDivisionError`, `IndexError`) is modelled as an
`Option`-returning function, `none` marking the raise.
-/

/-! ### Module-level constants of `sw_pll_sim.py` -/

def nominal_ref_frequency : ℚ := 48000
def target_mclk_frequency : ℚ := 12288000
def multiplier : ℚ := target_mclk_frequency / nominal_ref_frequency
def ref_to_loop_call_rate : ℤ := 512
def xtal_frequency : ℚ := 24000000

/-! ### Python primitives -/

/-- Python `int(x)` applied to a float: truncation toward zero. -/
def pytrunc (q : ℚ) : ℤ := if 0 ≤ q then ⌊q⌋ else ⌈q⌉

/-- `np.clip(x, lo, hi)`, which numpy documents as
`minimum(hi, maximum(x, lo))` (no check that `lo ≤ hi`). -/
def clip (x lo hi : ℚ) : ℚ := min hi (max x lo)

theorem pytrunc_intCast (n : ℤ) : pytrunc (n : ℚ) = n := by
  unfold pytrunc
  split <;> simp

theorem pytrunc_abs_le (q : ℚ) : |(pytrunc q : ℚ)| ≤ |q| := by
  unfold pytrunc
  split
  · next h =>
      rw [abs_of_nonneg h, abs_of_nonneg (by exact_mod_cast Int.floor_nonneg.mpr h)]
      exact_mod_cast Int.floor_le q
  · next h =>
      push_neg at h
      have hc : ⌈q⌉ ≤ 0 := Int.ceil_le.mpr (by exact_mod_cast h.le)
      rw [abs_of_neg h, abs_of_nonpos (by exact_mod_cast hc)]
      exact neg_le_neg (Int.le_ceil q)

theorem pytrunc_sub_lt (q : ℚ) : |q - pytrunc q| < 1 := by
  unfold pytrunc
  split
  · rw [abs_of_nonneg (by simp [Int.floor_le q])]
    have := Int.sub_one_lt_floor q
    push_cast at this ⊢
    linarith
  · rw [abs_of_nonpos (by simpa using Int.le_ceil q)]
    have := Int.ceil_lt_add_one q
    push_cast at this ⊢
    linarith

/-- The clip to `[-L, L]` never produces a value of magnitude above `|L|`
(also when `L` is negative, in which case numpy's clip returns `L`). -/
theorem abs_clip_le (x L : ℚ) : |clip x (-L) L| ≤ |L| := by
  unfold clip
  rcases le_total 0 L with hL | hL
  · have h1 : -L ≤ min L (max x (-L)) := le_min (by linarith) (le_max_right _ _)
    have h2 : min L (max x (-L)) ≤ L := min_le_left _ _
    rw [abs_of_nonneg hL]
    exact abs_le.mpr ⟨h1, h2⟩
  · have : min L (max x (-L)) = L := min_eq_left (le_trans (by linarith) (le_max_right x (-L)))
    rw [this]

/-! ### `app_pll_frac_calc` : the PLL Frequency Model

Fields as in `app_pll_frac_calc.__init__`; the mutable
`output_frequency` / `lock_status_state` bookkeeping is not part of the
functional model (`calc_frequency` returns the frequency directly). -/

structure AppPllFracCalc where
  input_frequency : ℚ
  F : ℤ
  R : ℤ
  OD : ℤ
  ACD : ℤ
  f : ℤ
  p : ℤ
deriving DecidableEq

/-- The intermediate VCO frequency `input_frequency * (F + 1.0) / 2.0 / (R + 1.0)`. -/
def vco_frequency (c : AppPllFracCalc) : ℚ :=
  c.input_frequency * ((c.F : ℚ) + 1) / 2 / ((c.R : ℚ) + 1)

/-- The datasheet output-frequency formula (line 64 of the source). -/
def pll_output_frequency (c : AppPllFracCalc) : ℚ :=
  c.input_frequency * ((c.F : ℚ) + 1 + ((c.f : ℚ) + 1) / ((c.p : ℚ) + 1)) / 2
    / ((c.R : ℚ) + 1) / ((c.OD : ℚ) + 1) / (2 * ((c.ACD : ℚ) + 1))

/-- `app_pll_frac_calc.calc_frequency`.  Each failed `assert` is a raised
exception, modelled as `none`.  The final guard models the
`ZeroDivisionError` Python raises in the output-frequency expression when
`p + 1 = 0` or `ACD + 1 = 0` (neither field is checked by the asserts).
The `type(...) is int` asserts hold by the `ℤ` typing of the fields. -/
def calc_frequency (c : AppPllFracCalc) : Option ℚ :=
  if 1 ≤ c.F ∧ c.F ≤ 8191 then
    if 0 ≤ c.R ∧ c.R ≤ 63 then
      if 0 ≤ c.OD ∧ c.OD ≤ 7 then
        if 360000000 ≤ vco_frequency c ∧ vco_frequency c ≤ 1800000000 then
          if c.f < c.p then
            if c.p + 1 = 0 ∨ c.ACD + 1 = 0 then none
            else some (pll_output_frequency c)
          else none
        else none
      else none
    else none
  else none

/-- `app_pll_frac_calc.update_pll_frac`: replace the fractional pair. -/
def update_pll_frac (c : AppPllFracCalc) (f p : ℤ) : AppPllFracCalc :=
  { c with f := f, p := p }

/-! ### `parse_lut_h_file` : building the Register LUT

The parsed content of a `fractions.h` file is abstracted as the declared
entry count (from the `frac_values[N]` line) and the list of
`(index, register)` pairs extracted from the entry lines, in file order.
The numpy `uint16` store keeps the low 16 bits; an index at or past the
declared size raises `IndexError` (`none`). -/

/-- One `lut[idx] = reg` store of the parsing loop. -/
def parse_store (num_entries : ℕ) (acc : Option (List ℕ)) (e : ℕ × ℕ) : Option (List ℕ) :=
  match acc with
  | none => none
  | some l => if e.1 < num_entries then some (l.set e.1 (e.2 % 65536)) else none

def parse_lut_h_file (num_entries : ℕ) (entries : List (ℕ × ℕ)) : Option (List ℕ) :=
  entries.foldl (parse_store num_entries) (some (List.replicate num_entries 0))

/-- Modelled from the spec: "indices are contiguous starting at 0" —
every index below the declared size occurs among the supplied entries.
(The build-time validation the spec describes is absent from the code;
this definition exists only to compare the spec's words with the code.) -/
def indices_contiguous (num_entries : ℕ) (entries : List (ℕ × ℕ)) : Prop :=
  ∀ i < num_entries, ∃ e ∈ entries, e.1 = i

instance (n : ℕ) (es : List (ℕ × ℕ)) : Decidable (indices_contiguous n es) := by
  unfold indices_contiguous
  infer_instance

/-! ### `error_to_pll_output_frequency` : the Error-to-Frequency Mapper -/

/-- `reg_to_frac`: high byte is the fractional multiplier `f`,
low byte the fractional divider `p`. -/
def reg_to_frac (register : ℕ) : ℕ × ℕ :=
  ((register &&& 0xff00) >>> 8, register &&& 0xff)

/-- `get_output_freqency_from_error` (source spelling kept).  The LUT is the
parsed register list; a failing `lut[set_point]` access (only possible on an
empty table, where the clamped index is `-1` or `0`) and a failing
`calc_frequency` are raised exceptions, modelled as `none`. -/
def get_output_freqency_from_error (cfg : AppPllFracCalc) (lut : List ℕ)
    (error : ℚ) : Option (ℚ × ℤ) :=
  let num_entries := lut.length
  let sp0 : ℤ := ((num_entries / 2 : ℕ) : ℤ) - pytrunc error
  let set_point : ℤ :=
    if sp0 < 0 then 0
    else if (num_entries : ℤ) ≤ sp0 then (num_entries : ℤ) - 1
    else sp0
  let lock_status : ℤ :=
    if sp0 < 0 then -1
    else if (num_entries : ℤ) ≤ sp0 then 1
    else 0
  match lut.get? set_point.toNat with
  | none => none
  | some register =>
      match calc_frequency
          (update_pll_frac cfg ((reg_to_frac register).1 : ℤ) ((reg_to_frac register).2 : ℤ)) with
      | none => none
      | some freq => some (freq, lock_status)

/-! ### `sw_pll_ctrl` : the PI/PII controller -/

structure SwPllCtrl where
  lut_size : ℕ
  multiplier : ℚ
  ref_to_loop_call_rate : ℤ
  ref_clk_count : ℤ
  mclk_count_old : ℤ
  expected_mclk_count_inc_float : ℚ
  expected_mclk_count_float : ℚ
  Kp : ℚ
  Ki : ℚ
  Kii : ℚ
  error_accum : ℚ
  error_accum_accum : ℚ
  error : ℚ
  i_windup_limit : ℚ
  ii_windup_limit : ℚ
deriving DecidableEq

namespace SwPllCtrl

set_option linter.unusedVariables false in
/-- `sw_pll_ctrl.__init__`.  The `lut_lookup_function` argument is not a
state field here: `do_control` takes the mapper's `(cfg, lut)` pair
explicitly.  Note the source quirk: `ref_clk_count` is initialised from
`init_mclk_count`, and `init_ref_clk_count` is unused. -/
def init (lut_size : ℕ) (mult : ℚ) (rate : ℤ) (Kp Ki Kii : ℚ)
    (init_mclk_count : ℤ) (init_ref_clk_count : ℤ) : SwPllCtrl :=
  { lut_size := lut_size
    multiplier := mult
    ref_to_loop_call_rate := rate
    ref_clk_count := init_mclk_count
    mclk_count_old := init_mclk_count
    expected_mclk_count_inc_float := mult * (rate : ℚ)
    expected_mclk_count_float := 0
    Kp := Kp
    Ki := Ki
    Kii := Kii
    error_accum := 0
    error_accum_accum := 0
    error := 0
    i_windup_limit := if Ki ≠ 0 then (lut_size : ℚ) / Ki else 0
    ii_windup_limit := if Kii ≠ 0 then (lut_size : ℚ) / Kii else 0 }

/-- The raw per-tick error of `do_control`:
`(int(mclk_count_float) - mclk_count_old) / period_fraction
 - int(expected_mclk_count_inc_float)`. -/
def raw_error (s : SwPllCtrl) (mclk_count_float period_fraction : ℚ) : ℚ :=
  ((pytrunc mclk_count_float : ℚ) - (s.mclk_count_old : ℚ)) / period_fraction
    - (pytrunc s.expected_mclk_count_inc_float : ℚ)

/-- The total error `error_p + error_i + error_ii` a tick feeds to the
LUT lookup, with the two integral terms clamped by `np.clip`. -/
def total_error (s : SwPllCtrl) (mclk_count_float period_fraction : ℚ) : ℚ :=
  let e := s.raw_error mclk_count_float period_fraction
  s.Kp * e
    + clip (s.Ki * (s.error_accum + e)) (-s.i_windup_limit) s.i_windup_limit
    + clip (s.Kii * (s.error_accum_accum + s.error_accum + e))
        (-s.ii_windup_limit) s.ii_windup_limit

/-- The state as mutated by one `do_control` call. -/
def step_state (s : SwPllCtrl) (mclk_count_float period_fraction : ℚ) : SwPllCtrl :=
  let e := s.raw_error mclk_count_float period_fraction
  { s with
    mclk_count_old := pytrunc mclk_count_float
    expected_mclk_count_float :=
      s.expected_mclk_count_float + s.expected_mclk_count_inc_float
    ref_clk_count := s.ref_clk_count + s.ref_to_loop_call_rate
    error_accum := s.error_accum + e
    error_accum_accum := s.error_accum_accum + (s.error_accum + e)
    error := s.total_error mclk_count_float period_fraction }

/-- `sw_pll_ctrl.do_control`.  `period_fraction = 0` is Python's
`ZeroDivisionError`; a raise inside the LUT lookup propagates. -/
def do_control (cfg : AppPllFracCalc) (lut : List ℕ) (s : SwPllCtrl)
    (mclk_count_float : ℚ) (period_fraction : ℚ) : Option ((ℚ × ℤ) × SwPllCtrl) :=
  if period_fraction = 0 then none
  else
    match get_output_freqency_from_error cfg lut
        (s.total_error mclk_count_float period_fraction) with
    | none => none
    | some (freq, lock_status) =>
        some ((freq, lock_status), s.step_state mclk_count_float period_fraction)

/-- A sequence of controller ticks: each list element is one
`(mclk_count_float, period_fraction)` pair fed to `do_control`. -/
def run (cfg : AppPllFracCalc) (lut : List ℕ) :
    SwPllCtrl → List (ℚ × ℚ) → Option SwPllCtrl
  | s, [] => some s
  | s, (m, pf) :: rest =>
      match do_control cfg lut s m pf with
      | none => none
      | some (_, s1) => run cfg lut s1 rest

end SwPllCtrl

/-! ### Validity side conditions used by the safety claims -/

/-- The fixed-field checks of `calc_frequency` (which do not involve the
per-tick fractional pair), plus non-negativity of the unchecked `ACD`
divider field: a valid PLL configuration. -/
def configChecksOK (c : AppPllFracCalc) : Prop :=
  (1 ≤ c.F ∧ c.F ≤ 8191) ∧ (0 ≤ c.R ∧ c.R ≤ 63) ∧ (0 ≤ c.OD ∧ c.OD ≤ 7) ∧
    0 ≤ c.ACD ∧ (360000000 ≤ vco_frequency c ∧ vco_frequency c ≤ 1800000000)

instance (c : AppPllFracCalc) : Decidable (configChecksOK c) := by
  unfold configChecksOK
  infer_instance

/-- A LUT register is valid when its decoded fractional pair satisfies the
`f < p` invariant the Frequency Model asserts. -/
def entryValid (register : ℕ) : Prop :=
  (reg_to_frac register).1 < (reg_to_frac register).2

instance (r : ℕ) : Decidable (entryValid r) := by
  unfold entryValid
  infer_instance

/-! ### Concrete instances used by witnesses and counterexamples -/

/-- A valid PLL configuration: VCO `= 24 MHz * 128 / 2 = 1.536 GHz`. -/
def cfgW : AppPllFracCalc :=
  { input_frequency := 24000000, F := 127, R := 0, OD := 1, ACD := 1, f := 0, p := 1 }

/-- A small LUT whose registers `0x0001, 0x0102, 0x0203` all decode to
valid `f < p` pairs. -/
def lutW : List ℕ := [1, 258, 515]

/-! ### Byte-level helper lemmas for the register decode -/

theorem reg_to_frac_fst (r : ℕ) : (reg_to_frac r).1 = r / 256 % 256 := by
  show (r &&& 65280) >>> 8 = r / 256 % 256
  have h1 : (65280 : ℕ) = (2 ^ 8 - 1) <<< 8 := by norm_num [Nat.shiftLeft_eq]
  have h2 : r / 256 = r >>> 8 := by rw [Nat.shiftRight_eq_div_pow]
  have h3 : (256 : ℕ) = 2 ^ 8 := by norm_num
  rw [h1, h2, h3]
  apply Nat.eq_of_testBit_eq
  intro i
  simp only [Nat.testBit_shiftRight, Nat.testBit_and, Nat.testBit_shiftLeft,
    Nat.testBit_mod_two_pow, Nat.testBit_two_pow_sub_one]
  by_cases hi : i < 8
  · simp [hi, Nat.le_add_right, Nat.add_sub_cancel_left, Bool.and_comm]
  · simp [hi, Nat.le_add_right, Nat.add_sub_cancel_left]

theorem reg_to_frac_snd (r : ℕ) : (reg_to_frac r).2 = r % 256 := by
  show r &&& 255 = r % 256
  have := Nat.and_pow_two_sub_one_eq_mod r 8
  norm_num at this
  exact this

/-! ### C8 -/

/-- C8: for every 16-bit packed register value, the decode returns the high
byte `(r &&& 0xff00) >>> 8` as the fractional multiplier and the low byte
`r &&& 0xff` as the fractional divider, and re-packing the decoded pair as
`(f <<< 8) ||| p` reproduces the register bit-exactly. -/
theorem c8_reg_to_frac_roundtrip (r : ℕ) (h : r < 65536) :
    (reg_to_frac r).1 = (r &&& 0xff00) >>> 8 ∧
    (reg_to_frac r).2 = r &&& 0xff ∧
    ((reg_to_frac r).1 <<< 8) ||| (reg_to_frac r).2 = r := by
  refine ⟨rfl, rfl, ?_⟩
  rw [reg_to_frac_fst, reg_to_frac_snd]
  have hr : r / 256 % 256 = r / 256 := Nat.mod_eq_of_lt (by omega)
  rw [hr, Nat.shiftLeft_eq, Nat.mul_comm (r / 256) (2 ^ 8)]
  rw [← Nat.mul_add_lt_is_or (b := r % 256) (by norm_num [Nat.mod_lt]) (r / 256)]
  norm_num [Nat.div_add_mod]

/-- Witness for C8 at the register `0xABCD`. -/
theorem c8_witness :
    (43981 : ℕ) < 65536 ∧
      ((reg_to_frac 43981).1 = (43981 &&& 0xff00) >>> 8 ∧
       (reg_to_frac 43981).2 = 43981 &&& 0xff ∧
       ((reg_to_frac 43981).1 <<< 8) ||| (reg_to_frac 43981).2 = 43981) :=
  ⟨by norm_num, c8_reg_to_frac_roundtrip 43981 (by norm_num)⟩

/-! ### C5 and C7 : the Frequency Model contract -/

/-- Shared helper: when every guard of `calc_frequency` holds, the model
returns the datasheet formula. -/
theorem calc_frequency_some (c : AppPllFracCalc)
    (hF : 1 ≤ c.F ∧ c.F ≤ 8191) (hR : 0 ≤ c.R ∧ c.R ≤ 63)
    (hOD : 0 ≤ c.OD ∧ c.OD ≤ 7)
    (hvco : 360000000 ≤ vco_frequency c ∧ vco_frequency c ≤ 1800000000)
    (hfp : c.f < c.p) (hp : 0 ≤ c.p) (hACD : 0 ≤ c.ACD) :
    calc_frequency c = some (pll_output_frequency c) := by
  unfold calc_frequency
  rw [if_pos hF, if_pos hR, if_pos hOD, if_pos hvco, if_pos hfp, if_neg (by omega)]

/-- A configuration meeting every precondition C5 lists
(`F ∈ [1,8191]`, `R ∈ [0,63]`, `OD ∈ [0,7]`, `f < p`, integer fields) whose
VCO frequency `24 MHz * 2 / 2 / 64 = 375 kHz` is outside `[360e6, 1800e6]`. -/
def cfgBadVco : AppPllFracCalc :=
  { input_frequency := 24000000, F := 1, R := 63, OD := 0, ACD := 0, f := 0, p := 1 }

/-- Counterexample to C5 as stated: `cfgBadVco` satisfies all of the claim's
preconditions, yet `calc_frequency` raises (returns no frequency at all,
in particular not the formula value). -/
theorem c5_counterexample :
    (1 ≤ cfgBadVco.F ∧ cfgBadVco.F ≤ 8191) ∧ (0 ≤ cfgBadVco.R ∧ cfgBadVco.R ≤ 63) ∧
    (0 ≤ cfgBadVco.OD ∧ cfgBadVco.OD ≤ 7) ∧ cfgBadVco.f < cfgBadVco.p ∧
    calc_frequency cfgBadVco = none ∧
    calc_frequency cfgBadVco ≠ some (pll_output_frequency cfgBadVco) := by
  have hnone : calc_frequency cfgBadVco = none := by
    norm_num [calc_frequency, vco_frequency, cfgBadVco]
  refine ⟨by decide, by decide, by decide, by decide, hnone, ?_⟩
  intro h
  rw [hnone] at h
  exact Option.noConfusion h

/-- C5 (amended): under the claim's preconditions plus the VCO validity
check of the same component (and non-negative divider offsets `p`, `ACD`,
which the bit-field origin of those registers guarantees), the Frequency
Model returns exactly the datasheet formula; being a pure function of the
configuration, repeated calls with identical fields agree by definition. -/
theorem c5_frequency_model_formula (c : AppPllFracCalc)
    (hF : 1 ≤ c.F ∧ c.F ≤ 8191) (hR : 0 ≤ c.R ∧ c.R ≤ 63)
    (hOD : 0 ≤ c.OD ∧ c.OD ≤ 7) (hfp : c.f < c.p)
    (hvco : 360000000 ≤ vco_frequency c ∧ vco_frequency c ≤ 1800000000)
    (hp : 0 ≤ c.p) (hACD : 0 ≤ c.ACD) :
    calc_frequency c =
      some (c.input_frequency * ((c.F : ℚ) + 1 + ((c.f : ℚ) + 1) / ((c.p : ℚ) + 1)) / 2
        / ((c.R : ℚ) + 1) / ((c.OD : ℚ) + 1) / (2 * ((c.ACD : ℚ) + 1))) :=
  calc_frequency_some c hF hR hOD hvco hfp hp hACD

/-- Witness for C5 at the valid configuration `cfgW`. -/
theorem c5_witness :
    (1 ≤ cfgW.F ∧ cfgW.F ≤ 8191) ∧
      calc_frequency cfgW =
        some (cfgW.input_frequency * ((cfgW.F : ℚ) + 1 + ((cfgW.f : ℚ) + 1) / ((cfgW.p : ℚ) + 1)) / 2
          / ((cfgW.R : ℚ) + 1) / ((cfgW.OD : ℚ) + 1) / (2 * ((cfgW.ACD : ℚ) + 1))) :=
  ⟨by decide,
    c5_frequency_model_formula cfgW (by decide) (by decide) (by decide) (by decide)
      (by norm_num [vco_frequency, cfgW]) (by decide) (by decide)⟩

/-- A configuration passing every check C7 enumerates, with the unchecked
`ACD = -1`: the output-frequency expression then divides by
`2 * (ACD + 1) = 0` and Python raises `ZeroDivisionError`. -/
def cfgBadAcd : AppPllFracCalc :=
  { input_frequency := 24000000, F := 127, R := 0, OD := 1, ACD := -1, f := 0, p := 1 }

/-- Counterexample to C7 as stated: every configuration check in the
claim's list passes for `cfgBadAcd`, yet the Frequency Model raises. -/
theorem c7_counterexample :
    (1 ≤ cfgBadAcd.F ∧ cfgBadAcd.F ≤ 8191) ∧ (0 ≤ cfgBadAcd.R ∧ cfgBadAcd.R ≤ 63) ∧
    (0 ≤ cfgBadAcd.OD ∧ cfgBadAcd.OD ≤ 7) ∧ cfgBadAcd.f < cfgBadAcd.p ∧
    (360000000 ≤ vco_frequency cfgBadAcd ∧ vco_frequency cfgBadAcd ≤ 1800000000) ∧
    calc_frequency cfgBadAcd = none := by
  refine ⟨by decide, by decide, by decide, by decide,
    by norm_num [vco_frequency, cfgBadAcd], ?_⟩
  norm_num [calc_frequency, vco_frequency, cfgBadAcd]

/-- C7 (amended): the Frequency Model raises (returns no frequency) if and
only if one of its checks fails — `F` outside `[1,8191]`, `R` outside
`[0,63]`, `OD` outside `[0,7]`, `f >= p`, VCO frequency outside
`[360e6, 1800e6]` — or one of the unchecked divider offsets vanishes
(`p = -1` or `ACD = -1`, a `ZeroDivisionError` in the output formula).
The non-integer-field checks of the source hold by typing here. -/
theorem c7_calc_frequency_raises_iff (c : AppPllFracCalc) :
    calc_frequency c = none ↔
      (c.F < 1 ∨ 8191 < c.F ∨ c.R < 0 ∨ 63 < c.R ∨ c.OD < 0 ∨ 7 < c.OD ∨
        c.p ≤ c.f ∨ vco_frequency c < 360000000 ∨ 1800000000 < vco_frequency c ∨
        c.p = -1 ∨ c.ACD = -1) := by
  unfold calc_frequency
  split_ifs with h1 h2 h3 h4 h5 h6
  · refine ⟨fun _ => ?_, fun _ => rfl⟩
    rcases h6 with h | h
    · have hp : c.p = -1 := by omega
      tauto
    · have ha : c.ACD = -1 := by omega
      tauto
  · constructor
    · intro hc
      exact absurd hc (by simp)
    · intro hD
      push_neg at h6
      exfalso
      rcases hD with h | h | h | h | h | h | h | h | h | h | h
      · omega
      · omega
      · omega
      · omega
      · omega
      · omega
      · omega
      · linarith [h4.1]
      · linarith [h4.2]
      · omega
      · omega
  · refine ⟨fun _ => ?_, fun _ => rfl⟩
    have : c.p ≤ c.f := not_lt.mp h5
    tauto
  · refine ⟨fun _ => ?_, fun _ => rfl⟩
    rcases not_and_or.mp h4 with h | h
    · have := not_le.mp h
      tauto
    · have := not_le.mp h
      tauto
  · refine ⟨fun _ => ?_, fun _ => rfl⟩
    rcases not_and_or.mp h3 with h | h
    · have := not_le.mp h
      tauto
    · have := not_le.mp h
      tauto
  · refine ⟨fun _ => ?_, fun _ => rfl⟩
    rcases not_and_or.mp h2 with h | h
    · have := not_le.mp h
      tauto
    · have := not_le.mp h
      tauto
  · refine ⟨fun _ => ?_, fun _ => rfl⟩
    rcases not_and_or.mp h1 with h | h
    · have := not_le.mp h
      tauto
    · have := not_le.mp h
      tauto

/-! ### C3 : no build-time validation of the LUT -/

theorem parse_store_foldl_none (num_entries : ℕ) :
    ∀ es : List (ℕ × ℕ), es.foldl (parse_store num_entries) none = none := by
  intro es
  induction es with
  | nil => rfl
  | cons a rest ih => simpa [parse_store] using ih

theorem parse_store_foldl_isSome (num_entries : ℕ) :
    ∀ (es : List (ℕ × ℕ)) (l : List ℕ),
      (es.foldl (parse_store num_entries) (some l)).isSome ↔
        ∀ e ∈ es, e.1 < num_entries := by
  intro es
  induction es with
  | nil => simp
  | cons a rest ih =>
      intro l
      rw [List.foldl_cons]
      by_cases ha : a.1 < num_entries
      · simp [parse_store, ha, ih]
      · simp [parse_store, ha, parse_store_foldl_none]

/-- The entries of a 3-entry table with index 1 missing and registers
`0x0002` at index 0 and `0x0102` at index 2 (these decode to frequencies
in no particular order; contiguity already fails). -/
def lutEntriesBad : List (ℕ × ℕ) := [(0, 2), (2, 258)]

/-- Counterexample to C3 as stated: the build accepts a table whose
indices are not contiguous starting at 0 (index 1 never occurs) —
nothing fails at build time. -/
theorem c3_counterexample :
    (parse_lut_h_file 3 lutEntriesBad).isSome ∧ ¬ indices_contiguous 3 lutEntriesBad := by
  decide

/-- C3 (amended): building the Register LUT performs no contiguity and no
monotonicity validation. It fails if and only if some supplied entry's
index is at or past the declared size (numpy `IndexError`); missing
indices silently keep the zero-initialised entry. -/
theorem c3_parse_lut_no_validation (num_entries : ℕ) (entries : List (ℕ × ℕ)) :
    (parse_lut_h_file num_entries entries).isSome ↔
      ∀ e ∈ entries, e.1 < num_entries := by
  unfold parse_lut_h_file
  exact parse_store_foldl_isSome num_entries entries (List.replicate num_entries 0)

/-! ### C1 : the error-to-frequency mapper -/

/-- C1: for a non-empty LUT and any signed integer error, the mapper forms
`set_point = size/2 - error`; below 0 it uses index 0 with status
UNLOCKED_LOW (`-1`), at or past `size` it uses index `size-1` with status
UNLOCKED_HIGH (`1`), otherwise the index `set_point` with status LOCKED
(`0`); the frequency returned is the Frequency Model's output for the
`(f, p)` pair decoded from the LUT entry at the clamped index (a raise in
the Frequency Model propagating as a raise of the mapper). -/
theorem c1_mapper_clamps_and_decodes (cfg : AppPllFracCalc) (lut : List ℕ)
    (h : 0 < lut.length) (e : ℤ) :
    (((lut.length / 2 : ℕ) : ℤ) - e < 0 →
      get_output_freqency_from_error cfg lut (e : ℚ) =
        (calc_frequency (update_pll_frac cfg
            ((reg_to_frac (lut.get ⟨0, h⟩)).1 : ℤ)
            ((reg_to_frac (lut.get ⟨0, h⟩)).2 : ℤ))).map (fun q => (q, -1))) ∧
    ((lut.length : ℤ) ≤ ((lut.length / 2 : ℕ) : ℤ) - e →
      get_output_freqency_from_error cfg lut (e : ℚ) =
        (calc_frequency (update_pll_frac cfg
            ((reg_to_frac (lut.get ⟨lut.length - 1, by omega⟩)).1 : ℤ)
            ((reg_to_frac (lut.get ⟨lut.length - 1, by omega⟩)).2 : ℤ))).map (fun q => (q, 1))) ∧
    (∀ (h0 : 0 ≤ ((lut.length / 2 : ℕ) : ℤ) - e)
       (h1 : ((lut.length / 2 : ℕ) : ℤ) - e < (lut.length : ℤ)),
      get_output_freqency_from_error cfg lut (e : ℚ) =
        (calc_frequency (update_pll_frac cfg
            ((reg_to_frac (lut.get ⟨(((lut.length / 2 : ℕ) : ℤ) - e).toNat, by omega⟩)).1 : ℤ)
            ((reg_to_frac (lut.get ⟨(((lut.length / 2 : ℕ) : ℤ) - e).toNat, by omega⟩)).2 : ℤ))).map
          (fun q => (q, 0))) := by
  refine ⟨?_, ?_, ?_⟩
  · intro hneg
    unfold get_output_freqency_from_error
    simp only [pytrunc_intCast]
    rw [if_pos hneg, if_pos hneg]
    rw [show ((0 : ℤ)).toNat = 0 from rfl]
    rw [List.get?_eq_get h]
    dsimp only
    cases hU : calc_frequency (update_pll_frac cfg
        ((reg_to_frac (lut.get ⟨0, h⟩)).1 : ℤ) ((reg_to_frac (lut.get ⟨0, h⟩)).2 : ℤ)) <;>
      rfl
  · intro hge
    have hnneg : ¬(((lut.length / 2 : ℕ) : ℤ) - e < 0) := by omega
    have hlt : lut.length - 1 < lut.length := by omega
    unfold get_output_freqency_from_error
    simp only [pytrunc_intCast]
    rw [if_neg hnneg, if_neg hnneg, if_pos hge, if_pos hge]
    rw [show ((lut.length : ℤ) - 1).toNat = lut.length - 1 by omega]
    rw [List.get?_eq_get hlt]
    dsimp only
    cases hU : calc_frequency (update_pll_frac cfg
        ((reg_to_frac (lut.get ⟨lut.length - 1, hlt⟩)).1 : ℤ)
        ((reg_to_frac (lut.get ⟨lut.length - 1, hlt⟩)).2 : ℤ)) <;>
      rfl
  · intro h0 h1
    have hnneg : ¬(((lut.length / 2 : ℕ) : ℤ) - e < 0) := by omega
    have hnge : ¬((lut.length : ℤ) ≤ ((lut.length / 2 : ℕ) : ℤ) - e) := by omega
    have hlt : (((lut.length / 2 : ℕ) : ℤ) - e).toNat < lut.length := by omega
    unfold get_output_freqency_from_error
    simp only [pytrunc_intCast]
    rw [if_neg hnneg, if_neg hnneg, if_neg hnge, if_neg hnge]
    rw [List.get?_eq_get hlt]
    dsimp only
    cases hU : calc_frequency (update_pll_frac cfg
        ((reg_to_frac (lut.get ⟨(((lut.length / 2 : ℕ) : ℤ) - e).toNat, hlt⟩)).1 : ℤ)
        ((reg_to_frac (lut.get ⟨(((lut.length / 2 : ℕ) : ℤ) - e).toNat, hlt⟩)).2 : ℤ)) <;>
      rfl

/-- Witness for C1 at `cfgW`, `lutW` (3 entries) and error 0. -/
theorem c1_witness :
    0 < lutW.length ∧
    ((((lutW.length / 2 : ℕ) : ℤ) - 0 < 0 →
      get_output_freqency_from_error cfgW lutW ((0 : ℤ) : ℚ) =
        (calc_frequency (update_pll_frac cfgW
            ((reg_to_frac (lutW.get ⟨0, by decide⟩)).1 : ℤ)
            ((reg_to_frac (lutW.get ⟨0, by decide⟩)).2 : ℤ))).map (fun q => (q, -1))) ∧
     ((lutW.length : ℤ) ≤ ((lutW.length / 2 : ℕ) : ℤ) - 0 →
      get_output_freqency_from_error cfgW lutW ((0 : ℤ) : ℚ) =
        (calc_frequency (update_pll_frac cfgW
            ((reg_to_frac (lutW.get ⟨lutW.length - 1, by decide⟩)).1 : ℤ)
            ((reg_to_frac (lutW.get ⟨lutW.length - 1, by decide⟩)).2 : ℤ))).map (fun q => (q, 1))) ∧
     (∀ (_h0 : 0 ≤ ((lutW.length / 2 : ℕ) : ℤ) - 0)
        (_h1 : ((lutW.length / 2 : ℕ) : ℤ) - 0 < (lutW.length : ℤ)),
      get_output_freqency_from_error cfgW lutW ((0 : ℤ) : ℚ) =
        (calc_frequency (update_pll_frac cfgW
            ((reg_to_frac (lutW.get ⟨(((lutW.length / 2 : ℕ) : ℤ) - 0).toNat, by decide⟩)).1 : ℤ)
            ((reg_to_frac (lutW.get ⟨(((lutW.length / 2 : ℕ) : ℤ) - 0).toNat, by decide⟩)).2 : ℤ))).map
          (fun q => (q, 0)))) :=
  ⟨by decide, c1_mapper_clamps_and_decodes cfgW lutW (by decide) 0⟩

/-! ### Helper lemmas for the controller claims -/

theorem calc_frequency_update_some (cfg : AppPllFracCalc) (hcfg : configChecksOK cfg)
    (f p : ℕ) (hfp : f < p) :
    calc_frequency (update_pll_frac cfg (f : ℤ) (p : ℤ)) =
      some (pll_output_frequency (update_pll_frac cfg (f : ℤ) (p : ℤ))) := by
  obtain ⟨hF, hR, hOD, hACD, hvco⟩ := hcfg
  exact calc_frequency_some _ hF hR hOD hvco
    (show (f : ℤ) < (p : ℤ) by exact_mod_cast hfp) (Int.natCast_nonneg p) hACD

/-- With a non-empty LUT of valid entries and a valid configuration, the
mapper succeeds on every error value. -/
theorem mapper_isSome (cfg : AppPllFracCalc) (lut : List ℕ) (hne : lut ≠ [])
    (hcfg : configChecksOK cfg) (hent : ∀ r ∈ lut, entryValid r) (err : ℚ) :
    ∃ q ls, get_output_freqency_from_error cfg lut err = some (q, ls) := by
  have h : 0 < lut.length := List.length_pos.mpr hne
  simp only [get_output_freqency_from_error]
  by_cases hneg : ((lut.length / 2 : ℕ) : ℤ) - pytrunc err < 0
  · rw [if_pos hneg, if_pos hneg]
    rw [show ((0 : ℤ)).toNat = 0 from rfl, List.get?_eq_get h]
    dsimp only
    rw [calc_frequency_update_some cfg hcfg _ _ (hent _ (List.get_mem lut 0 h))]
    exact ⟨_, _, rfl⟩
  · by_cases hge : (lut.length : ℤ) ≤ ((lut.length / 2 : ℕ) : ℤ) - pytrunc err
    · have hlt : lut.length - 1 < lut.length := by omega
      rw [if_neg hneg, if_neg hneg, if_pos hge, if_pos hge]
      rw [show ((lut.length : ℤ) - 1).toNat = lut.length - 1 by omega]
      rw [List.get?_eq_get hlt]
      dsimp only
      rw [calc_frequency_update_some cfg hcfg _ _ (hent _ (List.get_mem lut _ hlt))]
      exact ⟨_, _, rfl⟩
    · have hlt : (((lut.length / 2 : ℕ) : ℤ) - pytrunc err).toNat < lut.length := by omega
      rw [if_neg hneg, if_neg hneg, if_neg hge, if_neg hge]
      rw [List.get?_eq_get hlt]
      dsimp only
      rw [calc_frequency_update_some cfg hcfg _ _ (hent _ (List.get_mem lut _ hlt))]
      exact ⟨_, _, rfl⟩

/-- A successful `do_control` leaves the state described by `step_state`. -/
theorem do_control_some_state (cfg : AppPllFracCalc) (lut : List ℕ) (s : SwPllCtrl)
    (m pf : ℚ) (x : ℚ × ℤ) (s1 : SwPllCtrl)
    (h : SwPllCtrl.do_control cfg lut s m pf = some (x, s1)) :
    s1 = s.step_state m pf := by
  unfold SwPllCtrl.do_control at h
  by_cases hpf : pf = 0
  · rw [if_pos hpf] at h
    exact absurd h (by simp)
  · rw [if_neg hpf] at h
    cases hm : get_output_freqency_from_error cfg lut (s.total_error m pf) with
    | none =>
        rw [hm] at h
        exact absurd h (by simp)
    | some r =>
        obtain ⟨q, ls⟩ := r
        rw [hm] at h
        dsimp only at h
        simp only [Option.some.injEq, Prod.mk.injEq] at h
        exact h.2.symm

/-- Any run of control ticks preserves the gains, the windup limits, the
expected increment and the recorded LUT size. -/
theorem run_preserves (cfg : AppPllFracCalc) (lut : List ℕ) :
    ∀ (inputs : List (ℚ × ℚ)) (s0 s : SwPllCtrl),
      SwPllCtrl.run cfg lut s0 inputs = some s →
      s.Ki = s0.Ki ∧ s.Kii = s0.Kii ∧ s.i_windup_limit = s0.i_windup_limit ∧
        s.ii_windup_limit = s0.ii_windup_limit ∧ s.Kp = s0.Kp ∧
        s.expected_mclk_count_inc_float = s0.expected_mclk_count_inc_float ∧
        s.lut_size = s0.lut_size := by
  intro inputs
  induction inputs with
  | nil =>
      intro s0 s hsum
      unfold SwPllCtrl.run at hsum
      simp only [Option.some.injEq] at hsum
      subst hsum
      exact ⟨rfl, rfl, rfl, rfl, rfl, rfl, rfl⟩
  | cons a rest ih =>
      intro s0 s hsum
      obtain ⟨m, pf⟩ := a
      unfold SwPllCtrl.run at hsum
      cases hd : SwPllCtrl.do_control cfg lut s0 m pf with
      | none =>
          rw [hd] at hsum
          exact absurd hsum (by simp)
      | some r =>
          obtain ⟨x, s1⟩ := r
          rw [hd] at hsum
          dsimp only at hsum
          have hstep := do_control_some_state cfg lut s0 m pf x s1 hd
          subst hstep
          exact ih (s0.step_state m pf) s hsum

/-! ### C4 : runtime ticks never raise (except `period_fraction = 0`) -/

/-- C4: with a valid configuration (field checks incl. VCO range, and the
implicit non-negativity of the `ACD` register field), a non-empty LUT all
of whose entries decode to `f < p`, a controller tick raises if and only
if the caller passes `period_fraction = 0`: any error magnitude degrades
to a clamped index instead of raising. -/
theorem c4_tick_raises_iff_period_zero (cfg : AppPllFracCalc) (lut : List ℕ)
    (s : SwPllCtrl) (m pf : ℚ) (hne : lut ≠ []) (hcfg : configChecksOK cfg)
    (hent : ∀ r ∈ lut, entryValid r) :
    (SwPllCtrl.do_control cfg lut s m pf).isSome ↔ pf ≠ 0 := by
  unfold SwPllCtrl.do_control
  by_cases hpf : pf = 0
  · simp [hpf]
  · rw [if_neg hpf]
    obtain ⟨q, ls, hq⟩ := mapper_isSome cfg lut hne hcfg hent (s.total_error m pf)
    rw [hq]
    simp [hpf]

theorem cfgW_checks : configChecksOK cfgW := by
  refine ⟨by decide, by decide, by decide, by decide, ?_⟩
  norm_num [vco_frequency, cfgW]

theorem lutW_valid : ∀ r ∈ lutW, entryValid r := by decide

/-- Witness for C4 at `cfgW`, `lutW`, a freshly initialised controller,
measured count 100 and period fraction 1. -/
theorem c4_witness :
    lutW ≠ [] ∧ configChecksOK cfgW ∧ (∀ r ∈ lutW, entryValid r) ∧
      ((SwPllCtrl.do_control cfgW lutW (SwPllCtrl.init 3 256 512 (1/10) 2 0 0 0)
          100 1).isSome ↔ (1 : ℚ) ≠ 0) :=
  ⟨by decide, cfgW_checks, lutW_valid,
    c4_tick_raises_iff_period_zero cfgW lutW (SwPllCtrl.init 3 256 512 (1/10) 2 0 0 0)
      100 1 (by decide) cfgW_checks lutW_valid⟩

/-! ### C2 : anti-windup clamping -/

/-- C2 (amended): after any sequence of ticks from a freshly constructed
controller, the clamp applied to the integral term bounds its magnitude by
`|LUT_size / Ki|` whenever `Ki ≠ 0` (for negative `Ki` the numpy clip with
crossed bounds pins the term to the constant `LUT_size / Ki`, so the bound
holds with the absolute value, not with the signed quantity the claim
names), and likewise for the double-integral term and `Kii`; a zero gain
gives a zero windup limit. -/
theorem c2_windup_limits_bound_terms (cfg : AppPllFracCalc) (lut : List ℕ)
    (ls : ℕ) (mult : ℚ) (rate : ℤ) (Kp Ki Kii : ℚ) (im ir : ℤ)
    (inputs : List (ℚ × ℚ)) (s : SwPllCtrl)
    (hrun : SwPllCtrl.run cfg lut (SwPllCtrl.init ls mult rate Kp Ki Kii im ir) inputs
      = some s) (x : ℚ) :
    (Ki ≠ 0 → |clip (s.Ki * x) (-s.i_windup_limit) s.i_windup_limit| ≤ |(ls : ℚ) / Ki|) ∧
    (Ki = 0 → s.i_windup_limit = 0) ∧
    (Kii ≠ 0 → |clip (s.Kii * x) (-s.ii_windup_limit) s.ii_windup_limit| ≤ |(ls : ℚ) / Kii|) ∧
    (Kii = 0 → s.ii_windup_limit = 0) := by
  obtain ⟨hKi, hKii, hiw, hiiw, -, -, -⟩ := run_preserves cfg lut inputs _ s hrun
  have hinit_i : (SwPllCtrl.init ls mult rate Kp Ki Kii im ir).i_windup_limit
      = if Ki ≠ 0 then (ls : ℚ) / Ki else 0 := rfl
  have hinit_ii : (SwPllCtrl.init ls mult rate Kp Ki Kii im ir).ii_windup_limit
      = if Kii ≠ 0 then (ls : ℚ) / Kii else 0 := rfl
  refine ⟨?_, ?_, ?_, ?_⟩
  · intro hK
    rw [hiw, hinit_i, if_pos hK]
    exact abs_clip_le _ _
  · intro hK
    rw [hiw, hinit_i, if_neg (not_not_intro hK)]
  · intro hK
    rw [hiiw, hinit_ii, if_pos hK]
    exact abs_clip_le _ _
  · intro hK
    rw [hiiw, hinit_ii, if_neg (not_not_intro hK)]

/-- A controller built with `lut_size = 1` and `Ki = -1` (and `Kp = Kii = 0`),
used to refute C2 as stated. -/
def ctrlNegKi : SwPllCtrl := SwPllCtrl.init 1 256 512 0 (-1) 0 0 0

/-- Counterexample to C2 as stated: with `Ki = -1 ≠ 0` and `lut_size = 1`,
the windup limit is `lut_size / Ki = -1`; on the very first tick the
clamped integral term entering the total-error sum (the whole total, since
`Kp = Kii = 0`) is `-1`, whose magnitude `1` exceeds `lut_size / Ki = -1`. -/
theorem c2_counterexample :
    ctrlNegKi.i_windup_limit = (1 : ℚ) / (-1) ∧
    SwPllCtrl.total_error ctrlNegKi 0 1 = -1 ∧
    ¬ (|(-1 : ℚ)| ≤ (1 : ℚ) / (-1)) := by
  refine ⟨by norm_num [ctrlNegKi, SwPllCtrl.init], ?_, by norm_num⟩
  norm_num [SwPllCtrl.total_error, SwPllCtrl.raw_error, ctrlNegKi, SwPllCtrl.init,
    clip, pytrunc]

/-- Witness for C2: the empty tick sequence from a controller with
`lut_size = 3`, `Ki = 2`, `Kii = 1`, evaluated at `x = 5`. -/
theorem c2_witness :
    SwPllCtrl.run cfgW lutW (SwPllCtrl.init 3 256 512 (1/10) 2 1 0 0) [] =
      some (SwPllCtrl.init 3 256 512 (1/10) 2 1 0 0) ∧
    (((2 : ℚ) ≠ 0 →
        |clip ((SwPllCtrl.init 3 256 512 (1/10) 2 1 0 0).Ki * 5)
            (-(SwPllCtrl.init 3 256 512 (1/10) 2 1 0 0).i_windup_limit)
            (SwPllCtrl.init 3 256 512 (1/10) 2 1 0 0).i_windup_limit| ≤ |((3 : ℕ) : ℚ) / 2|) ∧
     ((2 : ℚ) = 0 → (SwPllCtrl.init 3 256 512 (1/10) 2 1 0 0).i_windup_limit = 0) ∧
     ((1 : ℚ) ≠ 0 →
        |clip ((SwPllCtrl.init 3 256 512 (1/10) 2 1 0 0).Kii * 5)
            (-(SwPllCtrl.init 3 256 512 (1/10) 2 1 0 0).ii_windup_limit)
            (SwPllCtrl.init 3 256 512 (1/10) 2 1 0 0).ii_windup_limit| ≤ |((3 : ℕ) : ℚ) / 1|) ∧
     ((1 : ℚ) = 0 → (SwPllCtrl.init 3 256 512 (1/10) 2 1 0 0).ii_windup_limit = 0)) :=
  ⟨rfl, c2_windup_limits_bound_terms cfgW lutW 3 256 512 (1/10) 2 1 0 0 []
    (SwPllCtrl.init 3 256 512 (1/10) 2 1 0 0) rfl 5⟩

/-! ### Concrete tick evaluation helpers -/

theorem do_control_eq_of_mapper (cfg : AppPllFracCalc) (lut : List ℕ) (s : SwPllCtrl)
    (m pf q : ℚ) (ls : ℤ) (hpf : pf ≠ 0)
    (hm : get_output_freqency_from_error cfg lut (s.total_error m pf) = some (q, ls)) :
    SwPllCtrl.do_control cfg lut s m pf = some ((q, ls), s.step_state m pf) := by
  unfold SwPllCtrl.do_control
  rw [if_neg hpf, hm]

/-- The mapper on `cfgW`, `lutW` at error 0 picks the midpoint entry
`0x0102` (so `f = 1`, `p = 2`) and returns `24e6 * (128 + 2/3) / 16`. -/
theorem mapper_cfgW_zero :
    get_output_freqency_from_error cfgW lutW 0 = some (193000000, 0) := by
  norm_num [get_output_freqency_from_error, pytrunc, calc_frequency, vco_frequency,
    pll_output_frequency, update_pll_frac, cfgW, lutW,
    (show reg_to_frac 258 = (1, 2) by decide)]

/-! ### C6 and C9 : the per-tick raw error and state update -/

/-- C6 (amended): on every successful tick the raw error added to the
accumulator is `count_increment - int(expected_increment)` where
`int` truncates toward zero (equal to `floor` whenever the expected
increment is non-negative, as for any real frequency ratio) and
`count_increment = (int(measured) - previous_measured) / period_fraction`;
the expected increment is set to `multiplier * ticks_per_call` at
construction and never changes; `previous_measured_count` is updated to
the new (truncated) sample within the same tick. -/
theorem c6_raw_error_from_fixed_expected (cfg : AppPllFracCalc) (lut : List ℕ)
    (s : SwPllCtrl) (m pf : ℚ) (x : ℚ × ℤ) (s1 : SwPllCtrl)
    (h : SwPllCtrl.do_control cfg lut s m pf = some (x, s1)) :
    s1.error_accum - s.error_accum =
      ((pytrunc m : ℚ) - (s.mclk_count_old : ℚ)) / pf
        - (pytrunc s.expected_mclk_count_inc_float : ℚ) ∧
    s1.expected_mclk_count_inc_float = s.expected_mclk_count_inc_float ∧
    s1.mclk_count_old = pytrunc m ∧
    (∀ (ls : ℕ) (mult : ℚ) (rate : ℤ) (Kp Ki Kii : ℚ) (im ir : ℤ),
      (SwPllCtrl.init ls mult rate Kp Ki Kii im ir).expected_mclk_count_inc_float
        = mult * (rate : ℚ)) := by
  have hs := do_control_some_state cfg lut s m pf x s1 h
  subst hs
  refine ⟨?_, rfl, rfl, fun _ _ _ _ _ _ _ _ => rfl⟩
  show s.error_accum + SwPllCtrl.raw_error s m pf - s.error_accum
      = SwPllCtrl.raw_error s m pf
  ring

/-- A controller whose expected increment `-(3/2) * 1` is negative, where
`int()` truncation and `floor` disagree. -/
def ctrlNegMult : SwPllCtrl := SwPllCtrl.init 3 (-(3/2)) 1 0 0 0 0 0

/-- Counterexample to C6 as stated: on a tick with measured count 0 and
period fraction 1 the code adds raw error `0 - int(-3/2) = 1` to the
accumulator, while the claim's `count_increment - floor(expected)` would
give `0 - (-2) = 2`. -/
theorem c6_counterexample :
    ((SwPllCtrl.do_control cfgW lutW ctrlNegMult 0 1).map (fun r => r.2.error_accum))
        = some 1 ∧
    (0 : ℚ) - (⌊ctrlNegMult.expected_mclk_count_inc_float⌋ : ℚ) = 2 ∧
    (1 : ℚ) ≠ 2 := by
  have htot : SwPllCtrl.total_error ctrlNegMult 0 1 = 0 := by
    norm_num [SwPllCtrl.total_error, SwPllCtrl.raw_error, ctrlNegMult, SwPllCtrl.init,
      clip, pytrunc, Int.ceil_neg]
  have hd := do_control_eq_of_mapper cfgW lutW ctrlNegMult 0 1 193000000 0 one_ne_zero
    (by rw [htot]; exact mapper_cfgW_zero)
  refine ⟨?_, ?_, by norm_num⟩
  · rw [hd, Option.map_some']
    norm_num [SwPllCtrl.step_state, SwPllCtrl.raw_error, ctrlNegMult, SwPllCtrl.init,
      pytrunc, Int.ceil_neg]
  · have hc : (⌈(3/2 : ℚ)⌉ : ℤ) = 2 := by
      rw [Int.ceil_eq_iff]
      norm_num
    norm_num [ctrlNegMult, SwPllCtrl.init, Int.floor_neg, hc]

/-- Witness for C6: a successful tick of a zero-gain controller from
`mclk_count = 5`. -/
theorem c6_witness :
    SwPllCtrl.do_control cfgW lutW (SwPllCtrl.init 3 256 512 0 0 0 0 0) 5 1 =
      some ((193000000, 0), (SwPllCtrl.init 3 256 512 0 0 0 0 0).step_state 5 1) ∧
    (((SwPllCtrl.init 3 256 512 0 0 0 0 0).step_state 5 1).error_accum
        - (SwPllCtrl.init 3 256 512 0 0 0 0 0).error_accum =
      ((pytrunc 5 : ℚ) - ((SwPllCtrl.init 3 256 512 0 0 0 0 0).mclk_count_old : ℚ)) / 1
        - (pytrunc (SwPllCtrl.init 3 256 512 0 0 0 0 0).expected_mclk_count_inc_float : ℚ) ∧
     ((SwPllCtrl.init 3 256 512 0 0 0 0 0).step_state 5 1).expected_mclk_count_inc_float
        = (SwPllCtrl.init 3 256 512 0 0 0 0 0).expected_mclk_count_inc_float ∧
     ((SwPllCtrl.init 3 256 512 0 0 0 0 0).step_state 5 1).mclk_count_old = pytrunc 5 ∧
     (∀ (ls : ℕ) (mult : ℚ) (rate : ℤ) (Kp Ki Kii : ℚ) (im ir : ℤ),
       (SwPllCtrl.init ls mult rate Kp Ki Kii im ir).expected_mclk_count_inc_float
         = mult * (rate : ℚ))) := by
  have htot : SwPllCtrl.total_error (SwPllCtrl.init 3 256 512 0 0 0 0 0) 5 1 = 0 := by
    norm_num [SwPllCtrl.total_error, SwPllCtrl.raw_error, SwPllCtrl.init, clip, pytrunc]
  have hd := do_control_eq_of_mapper cfgW lutW (SwPllCtrl.init 3 256 512 0 0 0 0 0)
    5 1 193000000 0 one_ne_zero (by rw [htot]; exact mapper_cfgW_zero)
  exact ⟨hd, c6_raw_error_from_fixed_expected cfgW lutW _ 5 1 _ _ hd⟩

/-- C9: a tick accepts a non-integer measured count: it stores
`previous_measured_count = int(mclk_count_float)` (truncation toward
zero, whose absolute value never exceeds the sample's and which sits
within distance 1 of it — so fractional parts are discarded, never
rounded up or accumulated), and the count increment is computed from the
truncated value. -/
theorem c9_measured_count_truncated (cfg : AppPllFracCalc) (lut : List ℕ)
    (s : SwPllCtrl) (m pf : ℚ) (x : ℚ × ℤ) (s1 : SwPllCtrl)
    (h : SwPllCtrl.do_control cfg lut s m pf = some (x, s1)) :
    s1.mclk_count_old = pytrunc m ∧
    s1.error_accum - s.error_accum =
      ((pytrunc m : ℚ) - (s.mclk_count_old : ℚ)) / pf
        - (pytrunc s.expected_mclk_count_inc_float : ℚ) ∧
    (∀ q : ℚ, |(pytrunc q : ℚ)| ≤ |q| ∧ |q - (pytrunc q : ℚ)| < 1) := by
  have hs := do_control_some_state cfg lut s m pf x s1 h
  subst hs
  refine ⟨rfl, ?_, fun q => ⟨pytrunc_abs_le q, pytrunc_sub_lt q⟩⟩
  show s.error_accum + SwPllCtrl.raw_error s m pf - s.error_accum
      = SwPllCtrl.raw_error s m pf
  ring

/-- Witness for C9: a successful tick from the fractional measured count
`7/2`, which is stored truncated to 3. -/
theorem c9_witness :
    SwPllCtrl.do_control cfgW lutW (SwPllCtrl.init 3 256 512 0 0 0 0 0) (7/2) 1 =
      some ((193000000, 0), (SwPllCtrl.init 3 256 512 0 0 0 0 0).step_state (7/2) 1) ∧
    (((SwPllCtrl.init 3 256 512 0 0 0 0 0).step_state (7/2) 1).mclk_count_old
        = pytrunc (7/2) ∧
     ((SwPllCtrl.init 3 256 512 0 0 0 0 0).step_state (7/2) 1).error_accum
        - (SwPllCtrl.init 3 256 512 0 0 0 0 0).error_accum =
      ((pytrunc (7/2) : ℚ) - ((SwPllCtrl.init 3 256 512 0 0 0 0 0).mclk_count_old : ℚ)) / 1
        - (pytrunc (SwPllCtrl.init 3 256 512 0 0 0 0 0).expected_mclk_count_inc_float : ℚ) ∧
     (∀ q : ℚ, |(pytrunc q : ℚ)| ≤ |q| ∧ |q - (pytrunc q : ℚ)| < 1)) := by
  have htot : SwPllCtrl.total_error (SwPllCtrl.init 3 256 512 0 0 0 0 0) (7/2) 1 = 0 := by
    norm_num [SwPllCtrl.total_error, SwPllCtrl.raw_error, SwPllCtrl.init, clip, pytrunc]
  have hd := do_control_eq_of_mapper cfgW lutW (SwPllCtrl.init 3 256 512 0 0 0 0 0)
    (7/2) 1 193000000 0 one_ne_zero (by rw [htot]; exact mapper_cfgW_zero)
  exact ⟨hd, c9_measured_count_truncated cfgW lutW _ (7/2) 1 _ _ hd⟩

/-! ### C10 : zero gains freeze the terms but not the accumulators -/

/-- A family of tick inputs whose measured count advances by the constant
integer `c` every tick (with unit period fraction), starting after `j`
earlier such ticks. -/
def ticksFrom (j : ℕ) (c : ℤ) : ℕ → List (ℚ × ℚ)
  | 0 => []
  | n + 1 => (((((j + 1 : ℕ) : ℤ) * c : ℤ) : ℚ), 1) :: ticksFrom (j + 1) c n

def ticksOf (n : ℕ) (c : ℤ) : List (ℚ × ℚ) := ticksFrom 0 c n

/-- Running `n` constant-increment ticks succeeds (under the validity
hypotheses) and adds `n` copies of the constant raw error to the
integral accumulator and `n(n+1)/2` copies to the double accumulator. -/
theorem run_ticksFrom (cfg : AppPllFracCalc) (lut : List ℕ) (hne : lut ≠ [])
    (hcfg : configChecksOK cfg) (hent : ∀ r ∈ lut, entryValid r) (c : ℤ) :
    ∀ (n j : ℕ) (s : SwPllCtrl), s.mclk_count_old = (j : ℤ) * c →
      ∃ s1, SwPllCtrl.run cfg lut s (ticksFrom j c n) = some s1 ∧
        s1.Ki = s.Ki ∧ s1.Kii = s.Kii ∧
        s1.i_windup_limit = s.i_windup_limit ∧ s1.ii_windup_limit = s.ii_windup_limit ∧
        s1.expected_mclk_count_inc_float = s.expected_mclk_count_inc_float ∧
        s1.error_accum = s.error_accum
          + (n : ℚ) * ((c : ℚ) - (pytrunc s.expected_mclk_count_inc_float : ℚ)) ∧
        s1.error_accum_accum = s.error_accum_accum + (n : ℚ) * s.error_accum
          + (((n * (n + 1) : ℕ) : ℚ) / 2)
              * ((c : ℚ) - (pytrunc s.expected_mclk_count_inc_float : ℚ)) := by
  intro n
  induction n with
  | zero =>
      intro j s hold
      refine ⟨s, rfl, rfl, rfl, rfl, rfl, rfl, ?_, ?_⟩ <;> push_cast <;> ring
  | succ n ih =>
      intro j s hold
      have hraw : SwPllCtrl.raw_error s ((((j + 1 : ℕ) : ℤ) * c : ℤ) : ℚ) 1
          = (c : ℚ) - (pytrunc s.expected_mclk_count_inc_float : ℚ) := by
        unfold SwPllCtrl.raw_error
        rw [pytrunc_intCast, hold]
        push_cast
        ring
      obtain ⟨q, ls, hm⟩ := mapper_isSome cfg lut hne hcfg hent
        (s.total_error ((((j + 1 : ℕ) : ℤ) * c : ℤ) : ℚ) 1)
      have hd := do_control_eq_of_mapper cfg lut s _ 1 q ls one_ne_zero hm
      have hold' : (s.step_state ((((j + 1 : ℕ) : ℤ) * c : ℤ) : ℚ) 1).mclk_count_old
          = ((j + 1 : ℕ) : ℤ) * c := by
        show pytrunc ((((j + 1 : ℕ) : ℤ) * c : ℤ) : ℚ) = _
        exact pytrunc_intCast _
      obtain ⟨s1, hrun1, hKi, hKii, hiw, hiiw, hexp, hacc, haa⟩ :=
        ih (j + 1) (s.step_state ((((j + 1 : ℕ) : ℤ) * c : ℤ) : ℚ) 1) hold'
      have hsacc : (s.step_state ((((j + 1 : ℕ) : ℤ) * c : ℤ) : ℚ) 1).error_accum
          = s.error_accum + ((c : ℚ) - (pytrunc s.expected_mclk_count_inc_float : ℚ)) := by
        show s.error_accum + SwPllCtrl.raw_error s ((((j + 1 : ℕ) : ℤ) * c : ℤ) : ℚ) 1 = _
        rw [hraw]
      have hsaa : (s.step_state ((((j + 1 : ℕ) : ℤ) * c : ℤ) : ℚ) 1).error_accum_accum
          = s.error_accum_accum
            + (s.error_accum + ((c : ℚ) - (pytrunc s.expected_mclk_count_inc_float : ℚ))) := by
        show s.error_accum_accum
            + (s.error_accum + SwPllCtrl.raw_error s ((((j + 1 : ℕ) : ℤ) * c : ℤ) : ℚ) 1) = _
        rw [hraw]
      have hsexp : (s.step_state ((((j + 1 : ℕ) : ℤ) * c : ℤ) : ℚ) 1).expected_mclk_count_inc_float
          = s.expected_mclk_count_inc_float := rfl
      rw [hsexp] at hacc haa
      rw [hsacc] at hacc haa
      rw [hsaa] at haa
      refine ⟨s1, ?_, hKi, hKii, hiw, hiiw, hexp, ?_, ?_⟩
      · rw [show ticksFrom j c (n + 1)
            = (((((j + 1 : ℕ) : ℤ) * c : ℤ) : ℚ), 1) :: ticksFrom (j + 1) c n from rfl]
        unfold SwPllCtrl.run
        rw [hd]
        exact hrun1
      · rw [hacc]
        push_cast
        ring
      · rw [haa]
        push_cast
        ring

/-- C10: with `Ki = 0` the integral windup limit is 0 and the clamp pins
the integral contribution to exactly 0 on every tick (interval `[0, 0]`,
whatever the accumulator holds); likewise for `Kii = 0` and the
double-integral term. Yet the accumulators are not frozen: over `n`
constant-increment ticks `error_accum` grows to `n` times the constant
raw error and `error_accum_accum` to `n(n+1)/2` times it, without bound. -/
theorem c10_zero_gain_zero_term_growing_accum (cfg : AppPllFracCalc) (lut : List ℕ)
    (hne : lut ≠ []) (hcfg : configChecksOK cfg) (hent : ∀ r ∈ lut, entryValid r)
    (ls : ℕ) (mult : ℚ) (rate : ℤ) (Kp Kii : ℚ) (ir : ℤ) (c : ℤ) (n : ℕ) :
    ∃ s, SwPllCtrl.run cfg lut (SwPllCtrl.init ls mult rate Kp 0 Kii 0 ir)
        (ticksOf n c) = some s ∧
      s.error_accum = (n : ℚ) * ((c : ℚ) - (pytrunc (mult * (rate : ℚ)) : ℚ)) ∧
      s.error_accum_accum =
        (((n * (n + 1) : ℕ) : ℚ) / 2) * ((c : ℚ) - (pytrunc (mult * (rate : ℚ)) : ℚ)) ∧
      s.i_windup_limit = 0 ∧
      (∀ x : ℚ, clip (s.Ki * x) (-s.i_windup_limit) s.i_windup_limit = 0) ∧
      (Kii = 0 → s.ii_windup_limit = 0 ∧
        ∀ x : ℚ, clip (s.Kii * x) (-s.ii_windup_limit) s.ii_windup_limit = 0) := by
  obtain ⟨s1, hrun1, hKi, hKii, hiw, hiiw, hexp, hacc, haa⟩ :=
    run_ticksFrom cfg lut hne hcfg hent c n 0
      (SwPllCtrl.init ls mult rate Kp 0 Kii 0 ir)
      (by show (0 : ℤ) = ((0 : ℕ) : ℤ) * c; push_cast; ring)
  have hKi0 : s1.Ki = 0 := hKi
  have hiw0 : s1.i_windup_limit = 0 := by
    rw [hiw]
    show (if (0 : ℚ) ≠ 0 then (ls : ℚ) / 0 else 0) = 0
    norm_num
  refine ⟨s1, hrun1, ?_, ?_, hiw0, ?_, ?_⟩
  · rw [hacc]
    show (0 : ℚ) + (n : ℚ) * ((c : ℚ) - (pytrunc (mult * (rate : ℚ)) : ℚ)) = _
    ring
  · rw [haa]
    show (0 : ℚ) + (n : ℚ) * 0
        + (((n * (n + 1) : ℕ) : ℚ) / 2) * ((c : ℚ) - (pytrunc (mult * (rate : ℚ)) : ℚ)) = _
    ring
  · intro x
    rw [hKi0, hiw0]
    norm_num [clip]
  · intro h0
    have hKii0 : s1.Kii = 0 := by
      rw [hKii]
      exact h0
    have hii0 : s1.ii_windup_limit = 0 := by
      rw [hiiw]
      show (if Kii ≠ 0 then (ls : ℚ) / Kii else 0) = 0
      rw [if_neg (not_not_intro h0)]
    refine ⟨hii0, fun x => ?_⟩
    rw [hKii0, hii0]
    norm_num [clip]

/-- Witness for C10: two ticks of constant increment 7 on a `Ki = 0`
controller over `cfgW`, `lutW`. -/
theorem c10_witness :
    lutW ≠ [] ∧ configChecksOK cfgW ∧ (∀ r ∈ lutW, entryValid r) ∧
    (∃ s, SwPllCtrl.run cfgW lutW (SwPllCtrl.init 3 256 512 (1/10) 0 0 0 0)
        (ticksOf 2 7) = some s ∧
      s.error_accum = ((2 : ℕ) : ℚ) * (((7 : ℤ) : ℚ) - (pytrunc (256 * ((512 : ℤ) : ℚ)) : ℚ)) ∧
      s.error_accum_accum =
        (((2 * (2 + 1) : ℕ) : ℚ) / 2) * (((7 : ℤ) : ℚ) - (pytrunc (256 * ((512 : ℤ) : ℚ)) : ℚ)) ∧
      s.i_windup_limit = 0 ∧
      (∀ x : ℚ, clip (s.Ki * x) (-s.i_windup_limit) s.i_windup_limit = 0) ∧
      ((0 : ℚ) = 0 → s.ii_windup_limit = 0 ∧
        ∀ x : ℚ, clip (s.Kii * x) (-s.ii_windup_limit) s.ii_windup_limit = 0)) :=
  ⟨by decide, cfgW_checks, lutW_valid,
    c10_zero_gain_zero_term_growing_accum cfgW lutW (by decide) cfgW_checks lutW_valid
      3 256 512 (1/10) 0 0 7 2⟩
